import Mathlib

/-!
Verification of the response-normalizer and helper nodes of the
Comfyui-Nodes-basenc plugin collection.

The Python sources are shallowly embedded: JSON/Python values become the
inductive type `JValue`; Python dictionaries become association lists
(`List (String × JValue)`, lookup returns the first binding, matching the
unique-key semantics of a Python dict); code that can raise a Python
exception becomes a function into `Except PyErr _`.  The embedded
functions keep the names of the source functions where Lean allows it.
-/

namespace Basenc

/-- The kinds of Python runtime errors the embedded code can raise. -/
inductive PyErr where
  /-- e.g. iterating a non-iterable, `in` on an unhashable value,
      `str.join` over non-strings, indexing with a bad type -/
  | typeError
  /-- e.g. calling `.get` on a value that is not a dict -/
  | attributeError
  /-- indexing an empty sequence -/
  | indexError
  /-- indexing a dict with an absent key -/
  | keyError
  /-- `raise ValueError(...)` in the source -/
  | valueError
deriving Repr, DecidableEq

/-- An abstract Python float: we record only its `str()` rendering and
whether it compares equal to `0.0` (the two observations the embedded
code can make of a float: stringification and truthiness). -/
structure PyFloat where
  repr : String
  isZero : Bool
deriving Repr, DecidableEq

/-- A JSON value as decoded by `json.loads` (a Python object made of
`None`, `bool`, `int`, `float`, `str`, `list` and `dict`). -/
inductive JValue where
  | null : JValue
  | bool (b : Bool) : JValue
  | int (n : Int) : JValue
  | float (f : PyFloat) : JValue
  | str (s : String) : JValue
  | arr (items : List JValue) : JValue
  | obj (fields : List (String × JValue)) : JValue
deriving Repr

namespace JValue

/-- Python truthiness: `None`, `False`, `0`, `0.0`, `""`, `[]`, `{}` are
falsy, everything else is truthy. -/
def truthy : JValue → Bool
  | .null => false
  | .bool b => b
  | .int n => n != 0
  | .float f => !f.isZero
  | .str s => s ≠ ""
  | .arr items => !items.isEmpty
  | .obj fields => !fields.isEmpty

/-- Is this value a Python `list`? (`isinstance(v, list)`) -/
def isArr : JValue → Bool
  | .arr _ => true
  | _ => false

/-- Is this value a Python `str`? -/
def isStr : JValue → Bool
  | .str _ => true
  | _ => false

/-- Is this value a Python `dict`? -/
def isObj : JValue → Bool
  | .obj _ => true
  | _ => false

/-- Python `v == s` for a string literal `s`: only equal when `v` is the
same string; comparison between different types returns `False` without
raising. -/
def eqStr (v : JValue) (s : String) : Bool :=
  match v with
  | .str t => t = s
  | _ => false

/-- Python `v.get(key, dflt)`: raises `AttributeError` unless `v` is a
dict; returns `dflt` when the key is absent. -/
def getAttrD (v : JValue) (key : String) (dflt : JValue) : Except PyErr JValue :=
  match v with
  | .obj fields => .ok ((fields.lookup key).getD dflt)
  | _ => .error .attributeError

/-- Python `v.get(key)` (default `None`). -/
def getAttr (v : JValue) (key : String) : Except PyErr JValue :=
  v.getAttrD key .null

/-- Python `for x in v`: lists yield their items, strings their
characters (as one-character strings), dicts their keys; any other value
raises `TypeError`. -/
def iter : JValue → Except PyErr (List JValue)
  | .arr items => .ok items
  | .str s => .ok (s.toList.map fun c => .str (String.singleton c))
  | .obj fields => .ok (fields.map fun kv => .str kv.1)
  | _ => .error .typeError

/-- Python `v in S` where `S` is a set of string literals: lists and
dicts are unhashable and raise `TypeError`; any other non-string value
is simply not a member. -/
def memStrSet (v : JValue) (set : List String) : Except PyErr Bool :=
  match v with
  | .arr _ => .error .typeError
  | .obj _ => .error .typeError
  | .str s => .ok (set.contains s)
  | _ => .ok false

/-- Python `v[0]`: first element of a list (IndexError when empty),
first character of a string, `KeyError` on a dict (JSON keys are
strings, so the integer key `0` is never present), `TypeError`
otherwise. -/
def index0 : JValue → Except PyErr JValue
  | .arr [] => .error .indexError
  | .arr (x :: _) => .ok x
  | .str s =>
      match s.toList with
      | [] => .error .indexError
      | c :: _ => .ok (.str (String.singleton c))
  | .obj _ => .error .keyError
  | _ => .error .typeError

end JValue

/-- Concatenation of a list of strings in order, with no separator. -/
def concatTexts (l : List String) : String := l.foldr (· ++ ·) ""

/-- Python `"".join(parts)`: concatenates when every part is a `str`,
raises `TypeError` otherwise. -/
def pyJoin : List JValue → Except PyErr String
  | [] => .ok ""
  | .str s :: rest => do
      let tail ← pyJoin rest
      .ok (s ++ tail)
  | _ :: _ => .error .typeError

/-- Python `str(v)` for the scalar values the JSONPathSelect node can
return (`str`, `int`, `float`, `bool`). -/
def pyStr : JValue → String
  | .str s => s
  | .int n => toString n
  | .bool b => if b then "True" else "False"
  | .float f => f.repr
  | .null => "None"
  | .arr _ => ""
  | .obj _ => ""

/-- `isinstance(v, (str, int, float, bool))` — the scalar check in
`JSONPathSelect.execute`.  (A Python `bool` is also an `int`; both are
scalars here.) -/
def isScalarJ : JValue → Bool
  | .str _ => true
  | .int _ => true
  | .float _ => true
  | .bool _ => true
  | _ => false

/-! ## `src/json_path_select.py` — `JSONPathSelect.execute`

The external libraries `json.loads` and `jmespath.search` are passed in
as parameters (`loads`, `search`); `search` may raise (`.error`), which
the source catches and turns into the empty output.  The source ends in

```python
if isinstance(current, (str, int, float, bool)):
    return IO.NodeOutput(str(current))
try:
    return IO.NodeOutput(json.dumps(current, indent=2))
finally:
    return IO.NodeOutput("")
```

In Python a `return` inside `finally` overrides the `return` inside the
`try`, so for every non-scalar `current` the computed serialization is
discarded and the empty string is returned; the embedding returns `""`
directly on that branch. -/

namespace JSONPathSelect

def execute (json_text path : String) (loads : String → JValue)
    (search : String → JValue → Except Unit JValue) : String :=
  if json_text = "" || path = "" then ""
  else
    let data := loads json_text
    match search path data with
    | .error _ => ""
    | .ok current =>
        if isScalarJ current then pyStr current
        else ""

end JSONPathSelect

/-! ## `src/wan_video_size.py` — `WanVideoSize`

`_SIZE_TABLE` and the table-lookup part of `execute`.  The `"auto"`
orientation derives an orientation from the reference image through a
floating-point aspect-ratio test (`_orientation_from_image`); the claims
under verification only concern explicit orientations, for which the
image is never consulted, so `execute` is embedded for an
already-explicit orientation string. -/

namespace WanVideoSize

def SIZE_TABLE : List (String × List (String × (Int × Int))) :=
  [("480p", [("landscape", (640, 480)),
             ("portrait", (480, 640)),
             ("square", (480, 480))]),
   ("720p", [("landscape", (1280, 720)),
             ("portrait", (720, 1280)),
             ("square", (720, 720))]),
   ("1080p", [("landscape", (1920, 1088)),
              ("portrait", (1088, 1920)),
              ("square", (1088, 1088))])]

def execute (resolution orientation : String) : Except PyErr (Int × Int) :=
  match SIZE_TABLE.lookup resolution with
  | none => .error .valueError
  | some sizes =>
      match sizes.lookup orientation with
      | none => .error .valueError
      | some wh => .ok wh

end WanVideoSize

/-! ## `src/custom_openai_chat_completion.py` — the response normalizer

`_extract_text` and `_extract_tool_calls` receive `completion.model_dump()`,
a Python dict; the embedding takes the dict as an association list.  The
loops `for item in …: parts/calls.append(…)` accumulate by appending, and
an exception aborts the whole call, so each loop is embedded as `collectM`
of a per-element function: the concatenation of per-element contributions,
with the first error winning. -/

/-- Run `f` over a list, concatenating the produced fragments in order;
the first error aborts (the embedding of an accumulate-by-append loop
whose body may raise). -/
def collectM (f : JValue → Except PyErr (List JValue)) :
    List JValue → Except PyErr (List JValue)
  | [] => .ok []
  | x :: xs => do
      let ys ← f x
      let rest ← collectM f xs
      pure (ys ++ rest)

namespace CustomOpenAIChatCompletion

/-- The non-text skip set of `_extract_text`. -/
def skipTypes : List String :=
  ["function_call", "tool_call", "mcp_call", "mcp_approval_request",
   "mcp_list_tools", "tool_output", "reasoning", "code_interpreter",
   "computer_use"]

/-- The loop body of `_extract_text` over one `content` entry `c` of a
`message` item:

```python
if c.get("type") in {"output_text", "input_text"}:
    if c.get("text"):
        parts.append(c["text"])
``` -/
def contentFrags (c : JValue) : Except PyErr (List JValue) := do
  let ct ← c.getAttr "type"
  let m ← ct.memStrSet ["output_text", "input_text"]
  if m then
    let tx ← c.getAttr "text"
    pure (if tx.truthy then [tx] else [])
  else
    pure []

/-- The loop body of `_extract_text` over one item of `output`: skip the
non-text types, gather `content` fragments of a `message` item, and the
`text` of a standalone `output_text` item. -/
def itemFrags (item : JValue) : Except PyErr (List JValue) := do
  let t ← item.getAttr "type"
  let skip ← t.memStrSet skipTypes
  if skip then
    pure []
  else do
    let msgParts ←
      if t.eqStr "message" then do
        let content ← item.getAttrD "content" (.arr [])
        let cs ← content.iter
        collectM contentFrags cs
      else pure []
    let directParts ←
      if t.eqStr "output_text" then do
        let tx ← item.getAttr "text"
        pure (if tx.truthy then [tx] else [])
      else pure []
    pure (msgParts ++ directParts)

/-- `CustomOpenAIChatCompletion._extract_text`.  The Python return type
annotation says `str`, but the `output_text` and Chat-Completions
branches return the raw JSON value unchanged when it is truthy, so the
embedding returns a `JValue`. -/
def extract_text (data : List (String × JValue)) : Except PyErr JValue :=
  if (data.lookup "output").isSome || (data.lookup "output_text").isSome then
    match data.lookup "output_text" with
    | some v => .ok (if v.truthy then v else .str "")
    | none => do
        let items ← ((data.lookup "output").getD (.arr [])).iter
        let parts ← collectM itemFrags items
        let s ← pyJoin parts
        pure (.str s)
  else if ((data.lookup "object").getD .null).eqStr "chat.completion" then
    -- choices = data.get("choices") or []; if not choices: return ""
    let choices := (data.lookup "choices").getD .null
    if !choices.truthy then .ok (.str "")
    else do
      let first ← choices.index0
      let msg ← first.getAttrD "message" (.obj [])
      let content ← msg.getAttr "content"
      pure (if content.truthy then content else .str "")
  else
    -- choices = data.get("choices"); if choices and isinstance(choices, list)
    let choices := (data.lookup "choices").getD .null
    if choices.truthy && choices.isArr then do
      let first ← choices.index0
      let tx ← first.getAttrD "text" (.str "")
      pure (if tx.truthy then tx else .str "")
    else .ok (.str "")

/-- The loop body of `_extract_tool_calls` over one item of `output`:
items typed `function_call` / `tool_call` / `mcp_call` emit one
normalized call each. -/
def callsOfItem (item : JValue) : Except PyErr (List JValue) := do
  let t ← item.getAttr "type"
  let m ← t.memStrSet ["function_call", "tool_call", "mcp_call"]
  if m then
    let id1 ← item.getAttr "id"
    let id2 ← item.getAttr "call_id"
    let fn ← item.getAttrD "function" (.obj [])
    let nm ← fn.getAttrD "name" (.str "")
    let args ← fn.getAttrD "arguments" (.str "")
    pure [.obj [("type", t),
                ("id", if id1.truthy then id1 else id2),
                ("function", .obj [("name", nm), ("arguments", args)])]]
  else
    pure []

/-- The loop body of `_extract_tool_calls` over one entry of
`choices[0].message.tool_calls` in the Chat-Completions branch. -/
def callOfChatTc (tc : JValue) : Except PyErr (List JValue) := do
  let fn ← tc.getAttrD "function" (.obj [])
  let ty ← tc.getAttrD "type" (.str "function")
  let cid ← tc.getAttr "id"
  let nm ← fn.getAttrD "name" (.str "")
  let args ← fn.getAttrD "arguments" (.str "")
  pure [.obj [("type", ty), ("id", cid),
              ("function", .obj [("name", nm), ("arguments", args)])]]

/-- `CustomOpenAIChatCompletion._extract_tool_calls`. -/
def extract_tool_calls (data : List (String × JValue)) :
    Except PyErr (List JValue) :=
  if (data.lookup "output").isSome then do
    let items ← ((data.lookup "output").getD .null).iter
    collectM callsOfItem items
  else if ((data.lookup "object").getD .null).eqStr "chat.completion" then
    let choices := (data.lookup "choices").getD .null
    if !choices.truthy then .ok []
    else do
      let first ← choices.index0
      let msg ← first.getAttrD "message" (.obj [])
      let tcv ← msg.getAttr "tool_calls"
      let tcs := if tcv.truthy then tcv else .arr []
      let ts ← tcs.iter
      collectM callOfChatTc ts
  else .ok []

/-- The fields of the assistant message appended by
`CustomOpenAIChatCompletion.execute`: the `{"role": "assistant", **…, **…}`
dict literal — the conditional spreads add `content` only for non-empty
text and `tool_calls` only for a non-empty call list. -/
def assistantFields (response_text : String) (tool_calls : List JValue) :
    List (String × JValue) :=
  [("role", JValue.str "assistant")]
  ++ (if response_text ≠ "" then
        [("content", JValue.arr [.obj [("type", .str "text"),
                                       ("text", .str response_text)]])]
      else [])
  ++ (if tool_calls.isEmpty then []
      else [("tool_calls", JValue.arr tool_calls)])

/-- The `messages_out` construction in `CustomOpenAIChatCompletion.execute`:
`messages_out = list(messages); messages_out.append({...})` — a fresh
list equal to the input plus the assistant entry. -/
def appendAssistantTurn (messages : List JValue) (response_text : String)
    (tool_calls : List JValue) : List JValue :=
  messages ++ [.obj (assistantFields response_text tool_calls)]

end CustomOpenAIChatCompletion

/-! ## `src/custom_openai_chat_completion.py` — `ChatMessagesCreate` -/

namespace ChatMessagesCreate

/-- The backwards search for a tool-call id in
`ChatMessagesCreate.execute` (called on `reversed(messages)`): skip
non-assistant entries; on an assistant entry whose `tool_calls` is a
non-empty list, take `last_call.get("id") or last_call.get("call_id") or ""`
when the last call is a dict; stop as soon as the id is truthy, keep
searching otherwise. -/
def searchTcId : List JValue → Except PyErr (Option JValue)
  | [] => .ok none
  | prev :: rest => do
      let role ← prev.getAttr "role"
      if !role.eqStr "assistant" then searchTcId rest
      else do
        let tcv ← prev.getAttr "tool_calls"
        match tcv with
        | .arr tcl =>
            match tcl.getLast? with
            | none => searchTcId rest
            | some last =>
                let tcId : JValue :=
                  match last with
                  | .obj lkvs =>
                      let i := (lkvs.lookup "id").getD .null
                      let c := (lkvs.lookup "call_id").getD .null
                      if i.truthy then i else if c.truthy then c else .str ""
                  | _ => .str ""
                if tcId.truthy then .ok (some tcId) else searchTcId rest
        | _ => searchTcId rest

/-- The `message_content` built by `ChatMessagesCreate.execute` from the
text input, for the `image=None` case:
`content_parts if content_parts else ([{"type": "text", "text": content}] if content else [])`. -/
def messageContent (content : String) : JValue :=
  let content_parts : List JValue :=
    if content ≠ "" then [.obj [("type", .str "text"), ("text", .str content)]]
    else []
  .arr (if !content_parts.isEmpty then content_parts
        else if content ≠ "" then
          [.obj [("type", .str "text"), ("text", .str content)]]
        else [])

/-- `ChatMessagesCreate.execute` for the `image=None` case, on an
already-decoded messages list.  For `role == "tool"` the appended
message additionally carries `tool_call_id`; when the backwards search
finds none, `ValueError` is raised. -/
def execute (messages : List JValue) (role content : String) :
    Except PyErr (List JValue) :=
  if role = "tool" then do
    let tc ← searchTcId messages.reverse
    match tc with
    | none => .error .valueError
    | some tcid =>
        .ok (messages ++ [.obj [("role", .str role),
                                ("content", messageContent content),
                                ("tool_call_id", tcid)]])
  else
    .ok (messages ++ [.obj [("role", .str role),
                            ("content", messageContent content)]])

end ChatMessagesCreate

/-! ## Well-shapedness predicates

`_extract_text` / `_extract_tool_calls` raise Python exceptions on
sufficiently malformed inputs (e.g. a non-dict element inside `output`).
The predicates below delimit a class of inputs on which they are
exception-free; they are used as hypotheses of the theorems. -/

namespace CustomOpenAIChatCompletion

/-- The value can appear in a Python `in {…string literals…}` test
without raising: everything except lists and dicts (which are
unhashable). -/
def hashableB : JValue → Bool
  | .arr _ => false
  | .obj _ => false
  | _ => true

/-- A `text` field that is absent, falsy, or a string (a truthy
non-string `text` would later make `"".join` raise). -/
def textFieldOK (kvs : List (String × JValue)) : Bool :=
  match kvs.lookup "text" with
  | none => true
  | some v => !v.truthy || v.isStr

/-- A `function` field that is absent or a dict (a present non-dict
`function` makes `.get("name", "")` raise). -/
def functionFieldOK (kvs : List (String × JValue)) : Bool :=
  match kvs.lookup "function" with
  | none => true
  | some v => v.isObj

/-- A well-shaped `content` entry of a `message` item: a dict with a
hashable `type` and a join-safe `text`. -/
def wsContentEntry : JValue → Bool
  | .obj kvs => hashableB ((kvs.lookup "type").getD .null) && textFieldOK kvs
  | _ => false

/-- The part of output-item well-shapedness that `_extract_tool_calls`
needs: a dict with a hashable `type` and a `function` that is absent or
a dict. -/
def wsCallItem : JValue → Bool
  | .obj kvs => hashableB ((kvs.lookup "type").getD .null) && functionFieldOK kvs
  | _ => false

/-- A fully well-shaped item of `output` (enough for both extractors):
additionally a join-safe `text` and a `content` that is absent or a
list of well-shaped entries. -/
def wsOutputItem (item : JValue) : Bool :=
  wsCallItem item &&
  (match item with
   | .obj kvs =>
       textFieldOK kvs &&
       (match kvs.lookup "content" with
        | none => true
        | some (.arr cs) => cs.all wsContentEntry
        | some _ => false)
   | _ => false)

/-- A well-shaped entry of `choices[0].message.tool_calls`. -/
def wsChatToolCall : JValue → Bool
  | .obj kvs => functionFieldOK kvs
  | _ => false

/-- A well-shaped first element of `choices`: a dict whose `message` is
absent or a dict, and whose `message.tool_calls` is absent, falsy, or a
list of well-shaped entries. -/
def wsChoiceHead : JValue → Bool
  | .obj kvs =>
      (match kvs.lookup "message" with
       | none => true
       | some (.obj mkvs) =>
           (match mkvs.lookup "tool_calls" with
            | none => true
            | some v =>
                if v.truthy then
                  match v with
                  | .arr ts => ts.all wsChatToolCall
                  | _ => false
                else true)
       | some _ => false)
  | _ => false

/-- The `choices` value accepted by `wellShaped` when truthy: a
non-empty list with a well-shaped head. -/
def wsChoicesVal : JValue → Bool
  | .arr (c :: _) => wsChoiceHead c
  | _ => false

/-- A well-shaped response dict: on such inputs neither extractor
raises.  `output`, when present, is a list of well-shaped items;
`choices`, when present and truthy, is a non-empty list with a
well-shaped head. -/
def wellShaped (data : List (String × JValue)) : Bool :=
  (match data.lookup "output" with
   | none => true
   | some (.arr items) => items.all wsOutputItem
   | some _ => false) &&
  (match data.lookup "choices" with
   | none => true
   | some v => if v.truthy then wsChoicesVal v else true)

/-! ## Spec-side descriptions

These functions restate, in direct functional form, what the spec claims
the extractors compute; the theorems identify them with the embedded
code on well-shaped inputs. -/

/-- Spec-side text of one `content` entry: the `text` of entries whose
`type` is `output_text` or `input_text`; the empty string otherwise. -/
def specContentText (c : JValue) : String :=
  match c with
  | .obj kvs =>
      match (kvs.lookup "type").getD .null with
      | .str t =>
          if t = "output_text" || t = "input_text" then
            match kvs.lookup "text" with
            | some (.str s) => s
            | _ => ""
          else ""
      | _ => ""
  | _ => ""

/-- Spec-side text contribution of one `output` item: nothing for the
skip set, the concatenated `content` texts for a `message` item, its
own `text` for a standalone `output_text` item. -/
def specItemText (item : JValue) : String :=
  match item with
  | .obj kvs =>
      match (kvs.lookup "type").getD .null with
      | .str t =>
          if skipTypes.contains t then ""
          else if t = "message" then
            match (kvs.lookup "content").getD (.arr []) with
            | .arr cs => concatTexts (cs.map specContentText)
            | _ => ""
          else if t = "output_text" then
            match kvs.lookup "text" with
            | some (.str s) => s
            | _ => ""
          else ""
      | _ => ""
  | _ => ""

/-- Spec-side id of a Responses-API tool call: the item's `id`, or its
`call_id` when `id` is falsy (the Python `or`). -/
def specCallId (kvs : List (String × JValue)) : JValue :=
  let i := (kvs.lookup "id").getD .null
  if i.truthy then i else (kvs.lookup "call_id").getD .null

/-- Spec-side field of the nested `function` object, defaulting to the
empty string when the field (or the whole `function` object) is
absent. -/
def specFnField (kvs : List (String × JValue)) (k : String) : JValue :=
  match kvs.lookup "function" with
  | some (.obj fkvs) => (fkvs.lookup k).getD (.str "")
  | _ => .str ""

/-- Spec-side tool calls emitted by one `output` item: one normalized
call for the types `function_call` / `tool_call` / `mcp_call`, nothing
otherwise. -/
def specItemCalls (item : JValue) : List JValue :=
  match item with
  | .obj kvs =>
      match (kvs.lookup "type").getD .null with
      | .str t =>
          if t = "function_call" || t = "tool_call" || t = "mcp_call" then
            [.obj [("type", .str t),
                   ("id", specCallId kvs),
                   ("function", .obj [("name", specFnField kvs "name"),
                                      ("arguments", specFnField kvs "arguments")])]]
          else []
      | _ => []
  | _ => []

/-- Spec-side normalization of one Chat-Completions `tool_calls` entry:
`type` defaults to `"function"` when absent, `id` is copied as-is,
`function.name` / `function.arguments` default to the empty string. -/
def specChatCall (tc : JValue) : JValue :=
  match tc with
  | .obj kvs =>
      .obj [("type", (kvs.lookup "type").getD (.str "function")),
            ("id", (kvs.lookup "id").getD .null),
            ("function", .obj [("name", specFnField kvs "name"),
                               ("arguments", specFnField kvs "arguments")])]
  | _ => .null

/-- Spec-side `choices[0].message.tool_calls`, defaulting to the empty
list when `message` or `tool_calls` is absent or falsy. -/
def specChoiceTcs (c : JValue) : List JValue :=
  match c with
  | .obj kvs =>
      match kvs.lookup "message" with
      | some (.obj mkvs) =>
          match (mkvs.lookup "tool_calls").getD .null with
          | .arr ts => ts
          | _ => []
      | _ => []
  | _ => []

/-- Spec-side `choices[0].text` of the legacy-Completions shape: the
string when present, the empty string when absent or null. -/
def legacyText (kvs : List (String × JValue)) : String :=
  match kvs.lookup "text" with
  | some (.str s) => s
  | _ => ""

end CustomOpenAIChatCompletion

/-- Spec-side per-message tool-call id for `ChatMessagesCreate`: an
assistant message whose `tool_calls` is a non-empty list yields the
`id`-or-`call_id` of its last entry when that is truthy. -/
def yieldsId (m : JValue) : Option JValue :=
  match m with
  | .obj kvs =>
      if ((kvs.lookup "role").getD .null).eqStr "assistant" then
        match (kvs.lookup "tool_calls").getD .null with
        | .arr tcl =>
            match tcl.getLast? with
            | some (.obj lkvs) =>
                let i := (lkvs.lookup "id").getD .null
                let c := (lkvs.lookup "call_id").getD .null
                let v := if i.truthy then i else if c.truthy then c else JValue.str ""
                if v.truthy then some v else none
            | _ => none
        | _ => none
      else none
  | _ => none

end Basenc

/-! # Theorems -/

namespace Basenc

/-! ## Helper lemmas -/

@[simp]
theorem exceptBind_ok {α β : Type} (a : α) (f : α → Except PyErr β) :
    (Except.ok a >>= f) = f a := rfl

@[simp]
theorem exceptBind_error {α β : Type} (e : PyErr) (f : α → Except PyErr β) :
    ((Except.error e : Except PyErr α) >>= f) = .error e := rfl

@[simp]
theorem exceptPure_eq {α : Type} (a : α) :
    (pure a : Except PyErr α) = .ok a := rfl

@[simp]
theorem exceptIsOk_ok {α : Type} (a : α) :
    (Except.ok a : Except PyErr α).isOk = true := rfl

theorem pyJoin_append {xs ys : List JValue} {a b : String}
    (hx : pyJoin xs = .ok a) (hy : pyJoin ys = .ok b) :
    pyJoin (xs ++ ys) = .ok (a ++ b) := by
  induction xs generalizing a with
  | nil =>
      simp only [pyJoin, Except.ok.injEq] at hx
      subst hx
      simpa using hy
  | cons x rest ih =>
      cases x with
      | str s =>
          simp only [pyJoin] at hx
          cases ht : pyJoin rest with
          | error e => rw [ht] at hx; simp at hx
          | ok t =>
              rw [ht] at hx
              simp only [exceptBind_ok, Except.ok.injEq] at hx
              subst hx
              have hrec := ih ht
              simp only [List.cons_append, pyJoin, List.append_eq]
              rw [hrec]
              simp [String.append_assoc]
      | null => simp [pyJoin] at hx
      | bool b' => simp [pyJoin] at hx
      | int n => simp [pyJoin] at hx
      | float f => simp [pyJoin] at hx
      | arr l => simp [pyJoin] at hx
      | obj l => simp [pyJoin] at hx

theorem collectM_joins {f : JValue → Except PyErr (List JValue)}
    {g : JValue → String} {l : List JValue}
    (H : ∀ x ∈ l, ∃ fs, f x = .ok fs ∧ pyJoin fs = .ok (g x)) :
    ∃ parts, collectM f l = .ok parts ∧
      pyJoin parts = .ok (concatTexts (l.map g)) := by
  induction l with
  | nil => exact ⟨[], rfl, rfl⟩
  | cons x rest ih =>
      obtain ⟨fs, hf, hj⟩ := H x (by simp)
      obtain ⟨parts, hc, hcj⟩ := ih (fun y hy => H y (by simp [hy]))
      refine ⟨fs ++ parts, ?_, ?_⟩
      · simp [collectM, hf, hc]
      · rw [pyJoin_append hj hcj]
        rfl

theorem collectM_eq {f : JValue → Except PyErr (List JValue)}
    {g : JValue → List JValue} {l : List JValue}
    (H : ∀ x ∈ l, f x = .ok (g x)) :
    collectM f l = .ok (l.flatMap g) := by
  induction l with
  | nil => rfl
  | cons x rest ih =>
      have hx := H x (by simp)
      have hrest := ih (fun y hy => H y (by simp [hy]))
      simp [collectM, hx, hrest]

namespace CustomOpenAIChatCompletion

theorem contentFrags_ws (c : JValue) (h : wsContentEntry c = true) :
    ∃ fs, contentFrags c = .ok fs ∧ pyJoin fs = .ok (specContentText c) := by
  cases c with
  | obj kvs =>
      simp only [wsContentEntry, Bool.and_eq_true] at h
      obtain ⟨hh, htx⟩ := h
      cases htv : (kvs.lookup "type").getD .null with
      | str t =>
          have hstep : contentFrags (.obj kvs) =
              (if (["output_text", "input_text"] : List String).contains t then
                 Except.ok
                   (if ((kvs.lookup "text").getD JValue.null).truthy then
                      [(kvs.lookup "text").getD JValue.null]
                    else [])
               else .ok []) := by
            simp only [contentFrags, JValue.getAttr, JValue.getAttrD,
              exceptBind_ok, exceptPure_eq, htv, JValue.memStrSet]
          have hspec : specContentText (.obj kvs) =
              (if t = "output_text" ∨ t = "input_text" then
                 (match kvs.lookup "text" with
                  | some (.str s) => s
                  | _ => "")
               else "") := by
            simp only [specContentText, htv]
            by_cases hmem : t = "output_text" ∨ t = "input_text"
            · rcases hmem with h | h <;> simp [h]
            · push_neg at hmem
              simp [hmem.1, hmem.2]
          by_cases hmem : t = "output_text" ∨ t = "input_text"
          · have hc : (["output_text", "input_text"] : List String).contains t
                = true := by
              rcases hmem with h | h <;> subst h <;> decide
            rw [hstep, hc, hspec, if_pos rfl, if_pos hmem]
            cases hlt : kvs.lookup "text" with
            | none =>
                refine ⟨[], by simp [hlt, JValue.truthy], by simp [hlt, pyJoin]⟩
            | some v =>
                simp only [textFieldOK, hlt] at htx
                cases hvt : v.truthy with
                | false =>
                    refine ⟨[], by simp [hlt, hvt], ?_⟩
                    cases v with
                    | str s =>
                        have hs : s = "" := by
                          simpa [JValue.truthy] using hvt
                        simp [hlt, hs, pyJoin]
                    | null => simp [hlt, pyJoin]
                    | bool b => simp [hlt, pyJoin]
                    | int n => simp [hlt, pyJoin]
                    | float f => simp [hlt, pyJoin]
                    | arr l => simp [hlt, pyJoin]
                    | obj l => simp [hlt, pyJoin]
                | true =>
                    rw [hvt] at htx
                    simp only [Bool.not_true, Bool.false_or] at htx
                    cases v with
                    | str s =>
                        refine ⟨[.str s], by simp [hlt, hvt], ?_⟩
                        simp [hlt, pyJoin]
                    | null => simp [JValue.isStr] at htx
                    | bool b => simp [JValue.isStr] at htx
                    | int n => simp [JValue.isStr] at htx
                    | float f => simp [JValue.isStr] at htx
                    | arr l => simp [JValue.isStr] at htx
                    | obj l => simp [JValue.isStr] at htx
          · have hc : (["output_text", "input_text"] : List String).contains t
                = false := by
              rw [List.contains_cons, List.contains_cons, List.contains_nil]
              push_neg at hmem
              simp [hmem.1, hmem.2]
            rw [hstep, hc, hspec, if_neg hmem]
            refine ⟨[], by simp, by simp [pyJoin]⟩
      | null =>
          exact ⟨[], by simp [contentFrags, JValue.getAttr, JValue.getAttrD,
            htv, JValue.memStrSet], by simp [specContentText, htv, pyJoin]⟩
      | bool b =>
          exact ⟨[], by simp [contentFrags, JValue.getAttr, JValue.getAttrD,
            htv, JValue.memStrSet], by simp [specContentText, htv, pyJoin]⟩
      | int n =>
          exact ⟨[], by simp [contentFrags, JValue.getAttr, JValue.getAttrD,
            htv, JValue.memStrSet], by simp [specContentText, htv, pyJoin]⟩
      | float f =>
          exact ⟨[], by simp [contentFrags, JValue.getAttr, JValue.getAttrD,
            htv, JValue.memStrSet], by simp [specContentText, htv, pyJoin]⟩
      | arr l => rw [htv] at hh; simp [hashableB] at hh
      | obj l => rw [htv] at hh; simp [hashableB] at hh
  | null => simp [wsContentEntry] at h
  | bool b => simp [wsContentEntry] at h
  | int n => simp [wsContentEntry] at h
  | float f => simp [wsContentEntry] at h
  | str s => simp [wsContentEntry] at h
  | arr l => simp [wsContentEntry] at h

theorem itemFrags_ws (item : JValue) (h : wsOutputItem item = true) :
    ∃ fs, itemFrags item = .ok fs ∧ pyJoin fs = .ok (specItemText item) := by
  cases item with
  | obj kvs =>
      simp only [wsOutputItem, wsCallItem, Bool.and_eq_true] at h
      obtain ⟨⟨hh, hfn⟩, htx, hco⟩ := h
      cases htv : (kvs.lookup "type").getD .null with
      | str t =>
          by_cases hskipm : t ∈ skipTypes
          · refine ⟨[], ?_, ?_⟩
            · simp [itemFrags, JValue.getAttr, JValue.getAttrD, htv,
                JValue.memStrSet, hskipm]
            · simp [specItemText, htv, hskipm, pyJoin]
          ·
            by_cases hm : t = "message"
            · subst hm
              cases hlc : kvs.lookup "content" with
              | none =>
                  refine ⟨[], ?_, ?_⟩
                  · simp [itemFrags, JValue.getAttr, JValue.getAttrD, htv,
                      JValue.memStrSet, hskipm, hlc, JValue.eqStr,
                      JValue.iter, collectM]
                  · simp [specItemText, htv, hskipm, hlc, concatTexts, pyJoin]
              | some cv =>
                  rw [hlc] at hco
                  cases cv with
                  | arr cs =>
                      have hall : ∀ c ∈ cs, wsContentEntry c = true := by
                        simpa [List.all_eq_true] using hco
                      obtain ⟨parts, hcol, hjoin⟩ :=
                        collectM_joins (g := specContentText)
                          (fun x hx => contentFrags_ws x (hall x hx))
                      refine ⟨parts, ?_, ?_⟩
                      · simp [itemFrags, JValue.getAttr, JValue.getAttrD, htv,
                          JValue.memStrSet, hskipm, hlc, JValue.eqStr,
                          JValue.iter, hcol]
                      · rw [hjoin]
                        simp [specItemText, htv, hskipm, hlc]
                  | null => simp at hco
                  | bool b => simp at hco
                  | int n => simp at hco
                  | float f => simp at hco
                  | str s => simp at hco
                  | obj l => simp at hco
            · by_cases hot : t = "output_text"
              · subst hot
                cases hlt : kvs.lookup "text" with
                | none =>
                    refine ⟨[], ?_, ?_⟩
                    · simp [itemFrags, JValue.getAttr, JValue.getAttrD, htv,
                        JValue.memStrSet, hskipm, hlt, JValue.eqStr,
                        JValue.truthy, hm]
                    · simp [specItemText, htv, hskipm, hlt, pyJoin]
                | some v =>
                    simp only [textFieldOK, hlt] at htx
                    cases hvt : v.truthy with
                    | false =>
                        refine ⟨[], ?_, ?_⟩
                        · simp [itemFrags, JValue.getAttr, JValue.getAttrD,
                            htv, JValue.memStrSet, hskipm, hlt, JValue.eqStr,
                            hvt, hm]
                        · cases v with
                          | str s =>
                              have hs : s = "" := by
                                simpa [JValue.truthy] using hvt
                              simp [specItemText, htv, hskipm, hlt, hs, pyJoin]
                          | null => simp [specItemText, htv, hskipm, hlt, pyJoin]
                          | bool b => simp [specItemText, htv, hskipm, hlt, pyJoin]
                          | int n => simp [specItemText, htv, hskipm, hlt, pyJoin]
                          | float f => simp [specItemText, htv, hskipm, hlt, pyJoin]
                          | arr l => simp [specItemText, htv, hskipm, hlt, pyJoin]
                          | obj l => simp [specItemText, htv, hskipm, hlt, pyJoin]
                    | true =>
                        rw [hvt] at htx
                        simp only [Bool.not_true, Bool.false_or] at htx
                        cases v with
                        | str s =>
                            refine ⟨[.str s], ?_, ?_⟩
                            · simp [itemFrags, JValue.getAttr, JValue.getAttrD,
                                htv, JValue.memStrSet, hskipm, hlt,
                                JValue.eqStr, hvt, hm]
                            · simp [specItemText, htv, hskipm, hlt, pyJoin]
                        | null => simp [JValue.isStr] at htx
                        | bool b => simp [JValue.isStr] at htx
                        | int n => simp [JValue.isStr] at htx
                        | float f => simp [JValue.isStr] at htx
                        | arr l => simp [JValue.isStr] at htx
                        | obj l => simp [JValue.isStr] at htx
              · refine ⟨[], ?_, ?_⟩
                · simp [itemFrags, JValue.getAttr, JValue.getAttrD, htv,
                    JValue.memStrSet, hskipm, JValue.eqStr, hm, hot]
                · simp [specItemText, htv, hskipm, hm, hot, pyJoin]
      | null =>
          refine ⟨[], ?_, ?_⟩
          · simp [itemFrags, JValue.getAttr, JValue.getAttrD, htv,
              JValue.memStrSet, JValue.eqStr]
          · simp [specItemText, htv, pyJoin]
      | bool b =>
          refine ⟨[], ?_, ?_⟩
          · simp [itemFrags, JValue.getAttr, JValue.getAttrD, htv,
              JValue.memStrSet, JValue.eqStr]
          · simp [specItemText, htv, pyJoin]
      | int n =>
          refine ⟨[], ?_, ?_⟩
          · simp [itemFrags, JValue.getAttr, JValue.getAttrD, htv,
              JValue.memStrSet, JValue.eqStr]
          · simp [specItemText, htv, pyJoin]
      | float f =>
          refine ⟨[], ?_, ?_⟩
          · simp [itemFrags, JValue.getAttr, JValue.getAttrD, htv,
              JValue.memStrSet, JValue.eqStr]
          · simp [specItemText, htv, pyJoin]
      | arr l =>
          rw [htv] at hh; simp [hashableB] at hh
      | obj l =>
          rw [htv] at hh; simp [hashableB] at hh
  | null => simp [wsOutputItem, wsCallItem] at h
  | bool b => simp [wsOutputItem, wsCallItem] at h
  | int n => simp [wsOutputItem, wsCallItem] at h
  | float f => simp [wsOutputItem, wsCallItem] at h
  | str s => simp [wsOutputItem, wsCallItem] at h
  | arr l => simp [wsOutputItem, wsCallItem] at h

theorem callsOfItem_ws (item : JValue) (h : wsCallItem item = true) :
    callsOfItem item = .ok (specItemCalls item) := by
  cases item with
  | obj kvs =>
      simp only [wsCallItem, Bool.and_eq_true] at h
      obtain ⟨hh, hfn⟩ := h
      cases htv : (kvs.lookup "type").getD .null with
      | str t =>
          by_cases hmem : t ∈ (["function_call", "tool_call", "mcp_call"] : List String)
          · simp only [List.mem_cons, List.not_mem_nil, or_false] at hmem
            cases hlf : kvs.lookup "function" with
            | none =>
                rcases hmem with h | h | h <;> subst h <;>
                  simp [callsOfItem, specItemCalls, specCallId, specFnField,
                    JValue.getAttr, JValue.getAttrD, htv, JValue.memStrSet, hlf]
            | some fv =>
                rw [functionFieldOK, hlf] at hfn
                cases fv with
                | obj fkvs =>
                    rcases hmem with h | h | h <;> subst h <;>
                      simp [callsOfItem, specItemCalls, specCallId, specFnField,
                        JValue.getAttr, JValue.getAttrD, htv, JValue.memStrSet,
                        hlf]
                | null => simp [JValue.isObj] at hfn
                | bool b => simp [JValue.isObj] at hfn
                | int n => simp [JValue.isObj] at hfn
                | float f => simp [JValue.isObj] at hfn
                | str s => simp [JValue.isObj] at hfn
                | arr l => simp [JValue.isObj] at hfn
          · have hne := hmem
            simp only [List.mem_cons, List.not_mem_nil, or_false, not_or] at hne
            simp [callsOfItem, specItemCalls, JValue.getAttr, JValue.getAttrD,
              htv, JValue.memStrSet, hmem, hne.1, hne.2.1, hne.2.2]
      | null =>
          simp [callsOfItem, specItemCalls, JValue.getAttr, JValue.getAttrD,
            htv, JValue.memStrSet]
      | bool b =>
          simp [callsOfItem, specItemCalls, JValue.getAttr, JValue.getAttrD,
            htv, JValue.memStrSet]
      | int n =>
          simp [callsOfItem, specItemCalls, JValue.getAttr, JValue.getAttrD,
            htv, JValue.memStrSet]
      | float f =>
          simp [callsOfItem, specItemCalls, JValue.getAttr, JValue.getAttrD,
            htv, JValue.memStrSet]
      | arr l => rw [htv] at hh; simp [hashableB] at hh
      | obj l => rw [htv] at hh; simp [hashableB] at hh
  | null => simp [wsCallItem] at h
  | bool b => simp [wsCallItem] at h
  | int n => simp [wsCallItem] at h
  | float f => simp [wsCallItem] at h
  | str s => simp [wsCallItem] at h
  | arr l => simp [wsCallItem] at h

theorem callOfChatTc_ws (tc : JValue) (h : wsChatToolCall tc = true) :
    callOfChatTc tc = .ok [specChatCall tc] := by
  cases tc with
  | obj kvs =>
      rw [wsChatToolCall] at h
      cases hlf : kvs.lookup "function" with
      | none =>
          simp [callOfChatTc, specChatCall, specFnField, JValue.getAttr,
            JValue.getAttrD, hlf]
      | some fv =>
          rw [functionFieldOK, hlf] at h
          cases fv with
          | obj fkvs =>
              simp [callOfChatTc, specChatCall, specFnField, JValue.getAttr,
                JValue.getAttrD, hlf]
          | null => simp [JValue.isObj] at h
          | bool b => simp [JValue.isObj] at h
          | int n => simp [JValue.isObj] at h
          | float f => simp [JValue.isObj] at h
          | str s => simp [JValue.isObj] at h
          | arr l => simp [JValue.isObj] at h
  | null => simp [wsChatToolCall] at h
  | bool b => simp [wsChatToolCall] at h
  | int n => simp [wsChatToolCall] at h
  | float f => simp [wsChatToolCall] at h
  | str s => simp [wsChatToolCall] at h
  | arr l => simp [wsChatToolCall] at h

theorem extract_text_output_eq
    (data : List (String × JValue)) (items : List JValue)
    (hot : data.lookup "output_text" = none)
    (ho : data.lookup "output" = some (.arr items))
    (hws : items.all wsOutputItem = true) :
    extract_text data = .ok (.str (concatTexts (items.map specItemText))) := by
  have hall : ∀ x ∈ items, wsOutputItem x = true := by
    simpa [List.all_eq_true] using hws
  obtain ⟨parts, hcol, hjoin⟩ :=
    collectM_joins (g := specItemText) (fun x hx => itemFrags_ws x (hall x hx))
  simp [extract_text, ho, hot, JValue.iter, hcol, hjoin]

theorem extract_tool_calls_output_eq
    (data : List (String × JValue)) (items : List JValue)
    (ho : data.lookup "output" = some (.arr items))
    (hws : items.all wsCallItem = true) :
    extract_tool_calls data = .ok (items.flatMap specItemCalls) := by
  have hall : ∀ x ∈ items, wsCallItem x = true := by
    simpa [List.all_eq_true] using hws
  have hcol := collectM_eq (g := specItemCalls)
    (fun x hx => callsOfItem_ws x (hall x hx))
  simp [extract_tool_calls, ho, JValue.iter, hcol]

end CustomOpenAIChatCompletion

theorem collectM_eq_map {f : JValue → Except PyErr (List JValue)}
    {g : JValue → JValue} {l : List JValue}
    (H : ∀ x ∈ l, f x = .ok [g x]) :
    collectM f l = .ok (l.map g) := by
  induction l with
  | nil => rfl
  | cons x rest ih =>
      have hx := H x (by simp)
      have hrest := ih (fun y hy => H y (by simp [hy]))
      simp [collectM, hx, hrest]

namespace CustomOpenAIChatCompletion

theorem extract_tool_calls_chat_unfold
    (data : List (String × JValue)) (c : JValue) (rest : List JValue)
    (ho : data.lookup "output" = none)
    (hobj : ((data.lookup "object").getD .null).eqStr "chat.completion" = true)
    (hch : data.lookup "choices" = some (.arr (c :: rest))) :
    extract_tool_calls data =
      (do
        let msg ← c.getAttrD "message" (.obj [])
        let tcv ← msg.getAttr "tool_calls"
        let ts ← (if tcv.truthy then tcv else .arr []).iter
        collectM callOfChatTc ts) := by
  simp [extract_tool_calls, ho, hobj, hch, JValue.truthy, JValue.index0]

theorem extract_tool_calls_chat_eq
    (data : List (String × JValue)) (c : JValue) (rest : List JValue)
    (ho : data.lookup "output" = none)
    (hobj : ((data.lookup "object").getD .null).eqStr "chat.completion" = true)
    (hch : data.lookup "choices" = some (.arr (c :: rest)))
    (hws : wsChoiceHead c = true) :
    extract_tool_calls data = .ok ((specChoiceTcs c).map specChatCall) := by
  rw [extract_tool_calls_chat_unfold data c rest ho hobj hch]
  cases c with
  | obj ckvs =>
      cases hlm : ckvs.lookup "message" with
      | none =>
          simp [JValue.getAttrD, JValue.getAttr, hlm, specChoiceTcs,
            JValue.truthy, JValue.iter, collectM]
      | some mv =>
          rw [wsChoiceHead] at hws
          rw [hlm] at hws
          cases mv with
          | obj mkvs =>
              have hws2 : (match mkvs.lookup "tool_calls" with
                  | none => true
                  | some v =>
                      if v.truthy then
                        match v with
                        | JValue.arr ts => ts.all wsChatToolCall
                        | _ => false
                      else true) = true := hws
              clear hws
              cases hlt : mkvs.lookup "tool_calls" with
              | none =>
                  simp [JValue.getAttrD, JValue.getAttr, hlm, hlt,
                    specChoiceTcs, JValue.truthy, JValue.iter, collectM]
              | some v =>
                  rw [hlt] at hws2
                  cases v with
                  | arr ts =>
                      have hws3 : (if (JValue.arr ts).truthy then
                          ts.all wsChatToolCall else true) = true := hws2
                      cases hvt : (JValue.arr ts).truthy with
                      | false =>
                          have hts : ts = [] := by
                            simpa [JValue.truthy, List.isEmpty_iff] using hvt
                          subst hts
                          simp [JValue.getAttrD, JValue.getAttr, hlm, hlt,
                            specChoiceTcs, JValue.truthy, JValue.iter, collectM]
                      | true =>
                          rw [hvt] at hws3
                          simp only [if_true] at hws3
                          have hall : ∀ tc ∈ ts, wsChatToolCall tc = true := by
                            simpa [List.all_eq_true] using hws3
                          have hcol := collectM_eq_map (g := specChatCall)
                            (fun tc htc => callOfChatTc_ws tc (hall tc htc))
                          simp [JValue.getAttrD, JValue.getAttr, hlm, hlt, hvt,
                            JValue.iter, hcol, specChoiceTcs]
                  | null =>
                      simp [JValue.getAttrD, JValue.getAttr, hlm, hlt,
                        specChoiceTcs, JValue.truthy, JValue.iter, collectM]
                  | bool b =>
                      have hws3 : (if (JValue.bool b).truthy then
                          False else True) := by
                        cases b with
                        | true => exact absurd hws2 (by simp [JValue.truthy])
                        | false => simp [JValue.truthy]
                      cases b with
                      | true => simp [JValue.truthy] at hws3
                      | false =>
                          simp [JValue.getAttrD, JValue.getAttr, hlm, hlt,
                            specChoiceTcs, JValue.truthy, JValue.iter, collectM]
                  | int n =>
                      have hws3 : (if (JValue.int n).truthy then
                          false else true) = true := hws2
                      cases hvt : (JValue.int n).truthy with
                      | true => rw [hvt] at hws3; simp at hws3
                      | false =>
                          simp [JValue.getAttrD, JValue.getAttr, hlm, hlt, hvt,
                            specChoiceTcs, JValue.iter, collectM]
                  | float f =>
                      have hws3 : (if (JValue.float f).truthy then
                          false else true) = true := hws2
                      cases hvt : (JValue.float f).truthy with
                      | true => rw [hvt] at hws3; simp at hws3
                      | false =>
                          simp [JValue.getAttrD, JValue.getAttr, hlm, hlt, hvt,
                            specChoiceTcs, JValue.iter, collectM]
                  | str s =>
                      have hws3 : (if (JValue.str s).truthy then
                          false else true) = true := hws2
                      cases hvt : (JValue.str s).truthy with
                      | true => rw [hvt] at hws3; simp at hws3
                      | false =>
                          simp [JValue.getAttrD, JValue.getAttr, hlm, hlt, hvt,
                            specChoiceTcs, JValue.iter, collectM]
                  | obj l =>
                      have hws3 : (if (JValue.obj l).truthy then
                          false else true) = true := hws2
                      cases hvt : (JValue.obj l).truthy with
                      | true => rw [hvt] at hws3; simp at hws3
                      | false =>
                          simp [JValue.getAttrD, JValue.getAttr, hlm, hlt, hvt,
                            specChoiceTcs, JValue.iter, collectM]
          | null => simp at hws
          | bool b => simp at hws
          | int n => simp at hws
          | float f => simp at hws
          | str s => simp at hws
          | arr l => simp at hws
  | null => simp [wsChoiceHead] at hws
  | bool b => simp [wsChoiceHead] at hws
  | int n => simp [wsChoiceHead] at hws
  | float f => simp [wsChoiceHead] at hws
  | str s => simp [wsChoiceHead] at hws
  | arr l => simp [wsChoiceHead] at hws

theorem extract_text_legacy_eq
    (data : List (String × JValue)) (ckvs : List (String × JValue))
    (rest : List JValue)
    (ho : data.lookup "output" = none)
    (hot : data.lookup "output_text" = none)
    (hobj : ((data.lookup "object").getD .null).eqStr "chat.completion" = false)
    (hch : data.lookup "choices" = some (.arr (.obj ckvs :: rest)))
    (htext : ∀ v, ckvs.lookup "text" = some v → v = .null ∨ ∃ s, v = .str s) :
    extract_text data = .ok (.str (legacyText ckvs)) := by
  cases hlt : ckvs.lookup "text" with
  | none =>
      simp [extract_text, ho, hot, hobj, hch, JValue.truthy, JValue.isArr,
        JValue.index0, JValue.getAttrD, hlt, legacyText]
  | some v =>
      rcases htext v hlt with rfl | ⟨s, rfl⟩
      · simp [extract_text, ho, hot, hobj, hch, JValue.truthy, JValue.isArr,
          JValue.index0, JValue.getAttrD, hlt, legacyText]
      · by_cases hs : s = ""
        · subst hs
          simp [extract_text, ho, hot, hobj, hch, JValue.truthy, JValue.isArr,
            JValue.index0, JValue.getAttrD, hlt, legacyText]
        · simp [extract_text, ho, hot, hobj, hch, JValue.truthy, JValue.isArr,
            JValue.index0, JValue.getAttrD, hlt, legacyText, hs]

end CustomOpenAIChatCompletion

/-- **C2.** Whenever `json.loads` succeeds and `jmespath.search`
succeeds and yields a value that is not a `str`, `int`, `float` or
`bool`, `JSONPathSelect.execute` returns the empty string: the `return`
in the `finally` block unconditionally overrides the serialized result
computed in the `try` block. -/
theorem jsonPathSelect_nonscalar_returns_empty
    (json_text path : String) (loads : String → JValue)
    (search : String → JValue → Except Unit JValue) (current : JValue)
    (hsearch : search path (loads json_text) = .ok current)
    (hscalar : isScalarJ current = false) :
    JSONPathSelect.execute json_text path loads search = "" := by
  unfold JSONPathSelect.execute
  by_cases h : json_text = "" || path = ""
  · simp [h]
  · simp [h, hsearch, hscalar]

/-- Witness for C2: a concrete lookup whose result is a list is
discarded and the node outputs the empty string. -/
theorem jsonPathSelect_nonscalar_returns_empty_witness :
    JSONPathSelect.execute "[1, 2]" "@" (fun _ => .arr [.int 1, .int 2])
      (fun _ d => .ok d) = "" :=
  jsonPathSelect_nonscalar_returns_empty "[1, 2]" "@"
    (fun _ => .arr [.int 1, .int 2]) (fun _ d => .ok d)
    (.arr [.int 1, .int 2]) rfl rfl

/-- **C9.** For non-empty `json_text` and `path`, when `json.loads`
succeeds and `jmespath.search` yields a scalar (`str`, `int`, `float`
or `bool`), `JSONPathSelect.execute` returns `str(current)`: the
result-discarding `try`/`finally` is only reached for non-scalar
results. -/
theorem jsonPathSelect_scalar_returns_str
    (json_text path : String) (loads : String → JValue)
    (search : String → JValue → Except Unit JValue) (current : JValue)
    (hjt : json_text ≠ "") (hp : path ≠ "")
    (hsearch : search path (loads json_text) = .ok current)
    (hscalar : isScalarJ current = true) :
    JSONPathSelect.execute json_text path loads search = pyStr current := by
  unfold JSONPathSelect.execute
  simp [hjt, hp, hsearch, hscalar]

/-- Witness for C9: a scalar integer lookup is returned in string
form. -/
theorem jsonPathSelect_scalar_returns_str_witness :
    JSONPathSelect.execute "\x7b\"a\": 7\x7d" "a"
      (fun _ => .obj [("a", .int 7)]) (fun _ _ => .ok (.int 7)) = "7" :=
  jsonPathSelect_scalar_returns_str "\x7b\"a\": 7\x7d" "a"
    (fun _ => .obj [("a", .int 7)]) (fun _ _ => .ok (.int 7)) (.int 7)
    (by decide) (by decide) rfl rfl

/-- **C10.** For every resolution preset, `WanVideoSize.execute` with
orientation `"landscape"` returns some pair `(w, h)`, with
`"portrait"` the swapped pair `(h, w)`, and with `"square"` a pair
whose width equals its height. -/
theorem wanVideoSize_orientation_swap
    (r : String) (hr : r ∈ ["480p", "720p", "1080p"]) :
    ∃ w h s : Int,
      WanVideoSize.execute r "landscape" = .ok (w, h) ∧
      WanVideoSize.execute r "portrait" = .ok (h, w) ∧
      WanVideoSize.execute r "square" = .ok (s, s) := by
  fin_cases hr
  · exact ⟨640, 480, 480, rfl, rfl, rfl⟩
  · exact ⟨1280, 720, 720, rfl, rfl, rfl⟩
  · exact ⟨1920, 1088, 1088, rfl, rfl, rfl⟩

/-- Witness for C10 at the `"720p"` preset. -/
theorem wanVideoSize_orientation_swap_witness :
    ∃ w h s : Int,
      WanVideoSize.execute "720p" "landscape" = .ok (w, h) ∧
      WanVideoSize.execute "720p" "portrait" = .ok (h, w) ∧
      WanVideoSize.execute "720p" "square" = .ok (s, s) :=
  wanVideoSize_orientation_swap "720p" (by simp)

theorem findSome?_none_iff {α β : Type} (f : α → Option β) (l : List α) :
    l.findSome? f = none ↔ ∀ x ∈ l, f x = none := by
  induction l with
  | nil => simp [List.findSome?]
  | cons x xs ih =>
      cases hx : f x with
      | some b => simp [List.findSome?, hx]
      | none => simp [List.findSome?, hx, ih]

theorem searchTcId_eq (l : List JValue) (h : ∀ m ∈ l, m.isObj = true) :
    ChatMessagesCreate.searchTcId l = .ok (l.findSome? yieldsId) := by
  induction l with
  | nil => rfl
  | cons prev rest ih =>
      have hp := h prev (by simp)
      have hrest := ih (fun m hm => h m (by simp [hm]))
      cases prev with
      | obj kvs =>
          cases hrole : ((kvs.lookup "role").getD .null).eqStr "assistant" with
          | false =>
              simp [ChatMessagesCreate.searchTcId, JValue.getAttr,
                JValue.getAttrD, hrole, hrest, List.findSome?, yieldsId]
          | true =>
              cases htc : (kvs.lookup "tool_calls").getD .null with
              | arr tcl =>
                  cases hgl : tcl.getLast? with
                  | none =>
                      simp [ChatMessagesCreate.searchTcId, JValue.getAttr,
                        JValue.getAttrD, hrole, htc, hgl, hrest,
                        List.findSome?, yieldsId]
                  | some last =>
                      cases last with
                      | obj lkvs =>
                          cases hvt : (if ((lkvs.lookup "id").getD
                                JValue.null).truthy then
                                  (lkvs.lookup "id").getD JValue.null
                                else if ((lkvs.lookup "call_id").getD
                                    JValue.null).truthy then
                                  (lkvs.lookup "call_id").getD JValue.null
                                else JValue.str "").truthy with
                          | false =>
                              simp [ChatMessagesCreate.searchTcId,
                                JValue.getAttr, JValue.getAttrD, hrole, htc,
                                hgl, hvt, hrest, List.findSome?, yieldsId]
                          | true =>
                              simp [ChatMessagesCreate.searchTcId,
                                JValue.getAttr, JValue.getAttrD, hrole, htc,
                                hgl, hvt, List.findSome?, yieldsId]
                      | null =>
                          simp [ChatMessagesCreate.searchTcId, JValue.getAttr,
                            JValue.getAttrD, hrole, htc, hgl, JValue.truthy,
                            hrest, List.findSome?, yieldsId]
                      | bool b =>
                          simp [ChatMessagesCreate.searchTcId, JValue.getAttr,
                            JValue.getAttrD, hrole, htc, hgl, JValue.truthy,
                            hrest, List.findSome?, yieldsId]
                      | int n =>
                          simp [ChatMessagesCreate.searchTcId, JValue.getAttr,
                            JValue.getAttrD, hrole, htc, hgl, JValue.truthy,
                            hrest, List.findSome?, yieldsId]
                      | float f =>
                          simp [ChatMessagesCreate.searchTcId, JValue.getAttr,
                            JValue.getAttrD, hrole, htc, hgl, JValue.truthy,
                            hrest, List.findSome?, yieldsId]
                      | str s =>
                          simp [ChatMessagesCreate.searchTcId, JValue.getAttr,
                            JValue.getAttrD, hrole, htc, hgl, JValue.truthy,
                            hrest, List.findSome?, yieldsId]
                      | arr l2 =>
                          simp [ChatMessagesCreate.searchTcId, JValue.getAttr,
                            JValue.getAttrD, hrole, htc, hgl, JValue.truthy,
                            hrest, List.findSome?, yieldsId]
              | null =>
                  simp [ChatMessagesCreate.searchTcId, JValue.getAttr,
                    JValue.getAttrD, hrole, htc, hrest, List.findSome?,
                    yieldsId]
              | bool b =>
                  simp [ChatMessagesCreate.searchTcId, JValue.getAttr,
                    JValue.getAttrD, hrole, htc, hrest, List.findSome?,
                    yieldsId]
              | int n =>
                  simp [ChatMessagesCreate.searchTcId, JValue.getAttr,
                    JValue.getAttrD, hrole, htc, hrest, List.findSome?,
                    yieldsId]
              | float f =>
                  simp [ChatMessagesCreate.searchTcId, JValue.getAttr,
                    JValue.getAttrD, hrole, htc, hrest, List.findSome?,
                    yieldsId]
              | str s =>
                  simp [ChatMessagesCreate.searchTcId, JValue.getAttr,
                    JValue.getAttrD, hrole, htc, hrest, List.findSome?,
                    yieldsId]
              | obj l2 =>
                  simp [ChatMessagesCreate.searchTcId, JValue.getAttr,
                    JValue.getAttrD, hrole, htc, hrest, List.findSome?,
                    yieldsId]
      | null => simp [JValue.isObj] at hp
      | bool b => simp [JValue.isObj] at hp
      | int n => simp [JValue.isObj] at hp
      | float f => simp [JValue.isObj] at hp
      | str s => simp [JValue.isObj] at hp
      | arr l2 => simp [JValue.isObj] at hp

namespace CustomOpenAIChatCompletion

theorem wsCallItem_of_wsOutputItem {item : JValue}
    (h : wsOutputItem item = true) : wsCallItem item = true := by
  cases item with
  | obj kvs =>
      simp only [wsOutputItem, Bool.and_eq_true] at h
      exact h.1
  | null => simp [wsOutputItem] at h
  | bool b => simp [wsOutputItem] at h
  | int n => simp [wsOutputItem] at h
  | float f => simp [wsOutputItem] at h
  | str s => simp [wsOutputItem] at h
  | arr l => simp [wsOutputItem] at h

theorem extract_text_chat_ok
    (data : List (String × JValue)) (c : JValue) (rest : List JValue)
    (ho : data.lookup "output" = none)
    (hot : data.lookup "output_text" = none)
    (hobj : ((data.lookup "object").getD .null).eqStr "chat.completion" = true)
    (hch : data.lookup "choices" = some (.arr (c :: rest)))
    (hws : wsChoiceHead c = true) :
    (extract_text data).isOk = true := by
  cases c with
  | obj ckvs =>
      cases hlm : ckvs.lookup "message" with
      | none =>
          simp [extract_text, ho, hot, hobj, hch, JValue.truthy,
            JValue.index0, JValue.getAttrD, JValue.getAttr, hlm]
      | some mv =>
          rw [wsChoiceHead] at hws
          rw [hlm] at hws
          cases mv with
          | obj mkvs =>
              simp [extract_text, ho, hot, hobj, hch, JValue.truthy,
                JValue.index0, JValue.getAttrD, JValue.getAttr, hlm]
          | null => simp at hws
          | bool b => simp at hws
          | int n => simp at hws
          | float f => simp at hws
          | str s => simp at hws
          | arr l => simp at hws
  | null => simp [wsChoiceHead] at hws
  | bool b => simp [wsChoiceHead] at hws
  | int n => simp [wsChoiceHead] at hws
  | float f => simp [wsChoiceHead] at hws
  | str s => simp [wsChoiceHead] at hws
  | arr l => simp [wsChoiceHead] at hws

end CustomOpenAIChatCompletion

open CustomOpenAIChatCompletion in
/-- Counterexample to **C1** as stated: the claim quantifies over
dicts with arbitrary JSON values, "including non-object elements inside
`output`".  On `{"output": [1]}` both extractors call `.get` on the
integer item and raise `AttributeError` instead of degrading to the
empty result. -/
theorem extract_raises_on_nonobject_output_item :
    extract_text [("output", JValue.arr [.int 1])] = .error .attributeError
    ∧ extract_tool_calls [("output", JValue.arr [.int 1])]
        = .error .attributeError :=
  ⟨rfl, rfl⟩

open CustomOpenAIChatCompletion in
/-- **C1 (amended).** For every input dict that is *well-shaped* —
`output`, when present, is a list of dicts with hashable `type`,
join-safe `text`, list-of-dict `content` and dict-or-absent `function`;
`choices`, when present and truthy, is a non-empty list whose head is
similarly well-shaped — `_extract_text` and `_extract_tool_calls`
raise no exception; and shapes recognized by none of the branches fall
through to the empty string and the empty list respectively. -/
theorem extractors_wellShaped_no_exception
    (data : List (String × JValue)) (h : wellShaped data = true) :
    (extract_text data).isOk = true
    ∧ (extract_tool_calls data).isOk = true
    ∧ (data.lookup "output" = none → data.lookup "output_text" = none →
       ((data.lookup "object").getD .null).eqStr "chat.completion" = false →
       (((data.lookup "choices").getD .null).truthy
          && ((data.lookup "choices").getD .null).isArr) = false →
       extract_text data = .ok (.str "") ∧ extract_tool_calls data = .ok []) := by
  simp only [wellShaped, Bool.and_eq_true] at h
  obtain ⟨hOut, hCh⟩ := h
  refine ⟨?_, ?_, ?_⟩
  · -- extract_text raises no exception
    cases hoo : data.lookup "output" with
    | some ov =>
        rw [hoo] at hOut
        cases ov with
        | arr items =>
            cases hot : data.lookup "output_text" with
            | some v => simp [extract_text, hoo, hot]
            | none =>
                rw [extract_text_output_eq data items hot hoo hOut]
                rfl
        | null => simp at hOut
        | bool b => simp at hOut
        | int n => simp at hOut
        | float f => simp at hOut
        | str s => simp at hOut
        | obj l => simp at hOut
    | none =>
        cases hot : data.lookup "output_text" with
        | some v => simp [extract_text, hoo, hot]
        | none =>
            cases hobj : ((data.lookup "object").getD .null).eqStr
                "chat.completion" with
            | true =>
                cases hch : data.lookup "choices" with
                | none =>
                    simp [extract_text, hoo, hot, hobj, hch, JValue.truthy]
                | some v =>
                    rw [hch] at hCh
                    cases hvt : v.truthy with
                    | false =>
                        simp [extract_text, hoo, hot, hobj, hch, hvt]
                    | true =>
                        have hCh2 : wsChoicesVal v = true := by
                          have hCh' : (if v.truthy then wsChoicesVal v
                              else true) = true := hCh
                          rw [hvt] at hCh'
                          simpa using hCh'
                        cases v with
                        | arr l =>
                            cases l with
                            | nil => simp [JValue.truthy] at hvt
                            | cons c rest =>
                                exact extract_text_chat_ok data c rest hoo hot
                                  hobj hch hCh2
                        | null => simp [wsChoicesVal] at hCh2
                        | bool b => simp [wsChoicesVal] at hCh2
                        | int n => simp [wsChoicesVal] at hCh2
                        | float f => simp [wsChoicesVal] at hCh2
                        | str s => simp [wsChoicesVal] at hCh2
                        | obj l => simp [wsChoicesVal] at hCh2
            | false =>
                cases hch : data.lookup "choices" with
                | none =>
                    simp [extract_text, hoo, hot, hobj, hch, JValue.truthy,
                      JValue.isArr]
                | some v =>
                    rw [hch] at hCh
                    cases hvt : v.truthy with
                    | false =>
                        simp [extract_text, hoo, hot, hobj, hch, hvt]
                    | true =>
                        have hCh2 : wsChoicesVal v = true := by
                          have hCh' : (if v.truthy then wsChoicesVal v
                              else true) = true := hCh
                          rw [hvt] at hCh'
                          simpa using hCh'
                        cases v with
                        | arr l =>
                            cases l with
                            | nil => simp [JValue.truthy] at hvt
                            | cons c rest =>
                                cases c with
                                | obj ckvs =>
                                    simp [extract_text, hoo, hot, hobj, hch,
                                      JValue.truthy, JValue.isArr,
                                      JValue.index0, JValue.getAttrD]
                                | null => simp [wsChoicesVal, wsChoiceHead] at hCh2
                                | bool b => simp [wsChoicesVal, wsChoiceHead] at hCh2
                                | int n => simp [wsChoicesVal, wsChoiceHead] at hCh2
                                | float f => simp [wsChoicesVal, wsChoiceHead] at hCh2
                                | str s => simp [wsChoicesVal, wsChoiceHead] at hCh2
                                | arr l2 => simp [wsChoicesVal, wsChoiceHead] at hCh2
                        | null => simp [wsChoicesVal] at hCh2
                        | bool b => simp [wsChoicesVal] at hCh2
                        | int n => simp [wsChoicesVal] at hCh2
                        | float f => simp [wsChoicesVal] at hCh2
                        | str s => simp [wsChoicesVal] at hCh2
                        | obj l => simp [wsChoicesVal] at hCh2
  · -- extract_tool_calls raises no exception
    cases hoo : data.lookup "output" with
    | some ov =>
        rw [hoo] at hOut
        cases ov with
        | arr items =>
            have hcall : items.all wsCallItem = true := by
              have hall : ∀ x ∈ items, wsOutputItem x = true := by
                simpa [List.all_eq_true] using hOut
              simp only [List.all_eq_true]
              exact fun x hx => wsCallItem_of_wsOutputItem (hall x hx)
            rw [extract_tool_calls_output_eq data items hoo hcall]
            rfl
        | null => simp at hOut
        | bool b => simp at hOut
        | int n => simp at hOut
        | float f => simp at hOut
        | str s => simp at hOut
        | obj l => simp at hOut
    | none =>
        cases hobj : ((data.lookup "object").getD .null).eqStr
            "chat.completion" with
        | true =>
            cases hch : data.lookup "choices" with
            | none =>
                simp [extract_tool_calls, hoo, hobj, hch, JValue.truthy]
            | some v =>
                rw [hch] at hCh
                cases hvt : v.truthy with
                | false =>
                    simp [extract_tool_calls, hoo, hobj, hch, hvt]
                | true =>
                    have hCh2 : wsChoicesVal v = true := by
                      have hCh' : (if v.truthy then wsChoicesVal v
                          else true) = true := hCh
                      rw [hvt] at hCh'
                      simpa using hCh'
                    cases v with
                    | arr l =>
                        cases l with
                        | nil => simp [JValue.truthy] at hvt
                        | cons c rest =>
                            rw [extract_tool_calls_chat_eq data c rest hoo
                              hobj hch hCh2]
                            rfl
                    | null => simp [wsChoicesVal] at hCh2
                    | bool b => simp [wsChoicesVal] at hCh2
                    | int n => simp [wsChoicesVal] at hCh2
                    | float f => simp [wsChoicesVal] at hCh2
                    | str s => simp [wsChoicesVal] at hCh2
                    | obj l => simp [wsChoicesVal] at hCh2
        | false =>
            simp [extract_tool_calls, hoo, hobj]
  · -- unrecognized shapes fall through to "" / []
    intro ho hot hobj hfall
    constructor
    · simp [extract_text, ho, hot, hobj, hfall]
    · simp [extract_tool_calls, ho, hobj]

open CustomOpenAIChatCompletion in
/-- Witness for C1 (amended): a well-shaped Chat-Completions payload
passes both extractors without an exception, and a dict matching no
branch falls through to `""` and `[]`. -/
theorem extractors_wellShaped_no_exception_witness :
    ((extract_text
        [("object", JValue.str "chat.completion"),
         ("choices", JValue.arr
            [.obj [("message", .obj
                [("content", JValue.str "hi"),
                 ("tool_calls", JValue.arr
                    [.obj [("id", .str "a"),
                           ("function", .obj [("name", .str "f")])]])])]])]).isOk
        = true)
    ∧ extract_text [("foo", JValue.int 3)] = .ok (.str "")
    ∧ extract_tool_calls [("foo", JValue.int 3)] = .ok [] := by
  refine ⟨?_, ?_, ?_⟩
  · exact (extractors_wellShaped_no_exception
      [("object", JValue.str "chat.completion"),
       ("choices", JValue.arr
          [.obj [("message", .obj
              [("content", JValue.str "hi"),
               ("tool_calls", JValue.arr
                  [.obj [("id", .str "a"),
                         ("function", .obj [("name", .str "f")])]])])]])]
      rfl).1
  · exact ((extractors_wellShaped_no_exception [("foo", JValue.int 3)]
      rfl).2.2 rfl rfl rfl rfl).1
  · exact ((extractors_wellShaped_no_exception [("foo", JValue.int 3)]
      rfl).2.2 rfl rfl rfl rfl).2

open CustomOpenAIChatCompletion in
/-- Counterexample to **C3** as stated: the claim says the emitted
ToolCall's `id` is "the item's `id` or else its `call_id` with the first
non-null value winning".  On an item whose `id` is the empty string —
non-null, so the claim predicts `id = ""` — the code's Python `or`
(first *truthy* wins) falls through to `call_id` and emits
`id = "c9"` instead. -/
theorem extractToolCalls_empty_id_falls_to_call_id :
    extract_tool_calls
        [("output", JValue.arr
            [.obj [("type", .str "function_call"),
                   ("id", .str ""),
                   ("call_id", .str "c9")]])]
      = .ok [.obj [("type", .str "function_call"),
                   ("id", .str "c9"),
                   ("function", .obj [("name", .str ""),
                                      ("arguments", .str "")])]]
    ∧ JValue.str "c9" ≠ JValue.str "" := by
  exact ⟨rfl, by simp⟩

open CustomOpenAIChatCompletion in
/-- **C3 (amended).** For every response dict whose `output` is a list
of well-shaped items (dicts with a hashable `type` and a `function`
field that is absent or a dict), `_extract_tool_calls` returns exactly
one ToolCall per item whose `type` is `function_call`, `tool_call` or
`mcp_call`, in source order: the ToolCall's `type` is the item's type,
its `id` is the item's `id` or else its `call_id` with the first
*truthy* value winning (Python `or`: an empty-string `id` falls through
to `call_id`), and `function.name` / `function.arguments` are read from
the nested `function` object, defaulting to the empty string.  The
sequence is returned directly from the `output` branch, never falling
through to the Chat-Completions branch even when it is empty and
`object == "chat.completion"` also holds. -/
theorem extractToolCalls_responses_branch
    (data : List (String × JValue)) (items : List JValue)
    (ho : data.lookup "output" = some (.arr items))
    (hws : items.all wsCallItem = true) :
    extract_tool_calls data = .ok (items.flatMap specItemCalls) :=
  extract_tool_calls_output_eq data items ho hws

open CustomOpenAIChatCompletion in
/-- Witness for C3 (amended): a payload whose `output` holds one
`tool_call` (with `call_id` only) and one `message` item, and which
*also* carries `object == "chat.completion"` with a non-empty
`choices[0].message.tool_calls` — the result comes from the `output`
branch alone. -/
theorem extractToolCalls_responses_branch_witness :
    extract_tool_calls
        [("output", JValue.arr
            [.obj [("type", .str "tool_call"),
                   ("call_id", .str "x1"),
                   ("function", .obj [("name", .str "f"),
                                      ("arguments", .str "\x7b\x7d")])],
             .obj [("type", .str "message")]]),
         ("object", JValue.str "chat.completion"),
         ("choices", JValue.arr
            [.obj [("message", .obj
                [("tool_calls", JValue.arr [.obj [("id", .str "zz")]])])]])]
      = .ok [.obj [("type", .str "tool_call"),
                   ("id", .str "x1"),
                   ("function", .obj [("name", .str "f"),
                                      ("arguments", .str "\x7b\x7d")])]] := by
  exact extractToolCalls_responses_branch
    [("output", JValue.arr
        [.obj [("type", .str "tool_call"),
               ("call_id", .str "x1"),
               ("function", .obj [("name", .str "f"),
                                  ("arguments", .str "\x7b\x7d")])],
         .obj [("type", .str "message")]]),
     ("object", JValue.str "chat.completion"),
     ("choices", JValue.arr
        [.obj [("message", .obj
            [("tool_calls", JValue.arr [.obj [("id", .str "zz")]])])]])]
    [.obj [("type", .str "tool_call"),
           ("call_id", .str "x1"),
           ("function", .obj [("name", .str "f"),
                              ("arguments", .str "\x7b\x7d")])],
     .obj [("type", .str "message")]]
    rfl rfl

open CustomOpenAIChatCompletion in
/-- **C4.** For every response dict that lacks `output_text` but
contains `output` (a list of well-shaped items), `_extract_text`
returns the concatenation, in encounter order with no separator, of:
for each item of type `message`, the `text` of its `content` entries
whose type is `output_text` or `input_text` and whose text is
non-empty; and for each item of type `output_text` directly, its
non-empty `text`; items whose type is in the non-text skip set
(including `reasoning`) contribute nothing. -/
theorem extractText_responses_concat
    (data : List (String × JValue)) (items : List JValue)
    (hot : data.lookup "output_text" = none)
    (ho : data.lookup "output" = some (.arr items))
    (hws : items.all wsOutputItem = true) :
    extract_text data = .ok (.str (concatTexts (items.map specItemText))) :=
  extract_text_output_eq data items hot ho hws

open CustomOpenAIChatCompletion in
/-- Witness for C4: one `message` item holding two `output_text`
entries `"a"` and `"b"`, plus a `reasoning` item, yields `"ab"`. -/
theorem extractText_responses_concat_witness :
    extract_text
        [("output", JValue.arr
            [.obj [("type", .str "message"),
                   ("content", JValue.arr
                      [.obj [("type", .str "output_text"), ("text", .str "a")],
                       .obj [("type", .str "output_text"), ("text", .str "b")]])],
             .obj [("type", .str "reasoning")]])]
      = .ok (.str "ab") := by
  exact extractText_responses_concat
    [("output", JValue.arr
        [.obj [("type", .str "message"),
               ("content", JValue.arr
                  [.obj [("type", .str "output_text"), ("text", .str "a")],
                   .obj [("type", .str "output_text"), ("text", .str "b")]])],
         .obj [("type", .str "reasoning")]])]
    [.obj [("type", .str "message"),
           ("content", JValue.arr
              [.obj [("type", .str "output_text"), ("text", .str "a")],
               .obj [("type", .str "output_text"), ("text", .str "b")]])],
     .obj [("type", .str "reasoning")]]
    rfl rfl rfl

open CustomOpenAIChatCompletion in
/-- **C5.** For every response dict without `output` whose `object` is
`"chat.completion"`: when `choices` is empty (or otherwise falsy)
`_extract_tool_calls` returns the empty sequence; otherwise it maps
each entry of `choices[0].message.tool_calls` (defaulting to the empty
list) in order to a normalized ToolCall whose `type` defaults to
`"function"` when absent, whose `id` is copied as-is, and whose
`function.name` / `function.arguments` come from the nested `function`
object, defaulting to the empty string. -/
theorem extractToolCalls_chat_branch
    (data : List (String × JValue))
    (ho : data.lookup "output" = none)
    (hobj : ((data.lookup "object").getD .null).eqStr "chat.completion" = true) :
    (((data.lookup "choices").getD .null).truthy = false →
       extract_tool_calls data = .ok [])
    ∧ (∀ c rest, data.lookup "choices" = some (.arr (c :: rest)) →
         wsChoiceHead c = true →
         extract_tool_calls data = .ok ((specChoiceTcs c).map specChatCall)) := by
  constructor
  · intro hch
    simp [extract_tool_calls, ho, hobj, hch]
  · intro c rest hch hws
    exact extract_tool_calls_chat_eq data c rest ho hobj hch hws

open CustomOpenAIChatCompletion in
/-- Witness for C5: one choice whose `message.tool_calls` holds the
single entry `{id: "c1", function: {name: "f", arguments: "\x7b\x7d"}}`
is normalized with the defaulted `type: "function"`; and the
empty-`choices` payload yields the empty sequence. -/
theorem extractToolCalls_chat_branch_witness :
    extract_tool_calls
        [("object", JValue.str "chat.completion"),
         ("choices", JValue.arr
            [.obj [("message", .obj
                [("tool_calls", JValue.arr
                    [.obj [("id", .str "c1"),
                           ("function", .obj [("name", .str "f"),
                                              ("arguments", .str "\x7b\x7d")])]])])]])]
      = .ok [.obj [("type", .str "function"),
                   ("id", .str "c1"),
                   ("function", .obj [("name", .str "f"),
                                      ("arguments", .str "\x7b\x7d")])]]
    ∧ extract_tool_calls
        [("object", JValue.str "chat.completion"), ("choices", JValue.arr [])]
      = .ok [] := by
  constructor
  · exact (extractToolCalls_chat_branch
      [("object", JValue.str "chat.completion"),
       ("choices", JValue.arr
          [.obj [("message", .obj
              [("tool_calls", JValue.arr
                  [.obj [("id", .str "c1"),
                         ("function", .obj [("name", .str "f"),
                                            ("arguments", .str "\x7b\x7d")])]])])]])]
      rfl rfl).2
      (.obj [("message", .obj
          [("tool_calls", JValue.arr
              [.obj [("id", .str "c1"),
                     ("function", .obj [("name", .str "f"),
                                        ("arguments", .str "\x7b\x7d")])]])])])
      [] rfl rfl
  · exact (extractToolCalls_chat_branch
      [("object", JValue.str "chat.completion"), ("choices", JValue.arr [])]
      rfl rfl).1 rfl

open CustomOpenAIChatCompletion in
/-- **C6.** For every message list, extracted text and extracted
tool-call list, the appended assistant turn is a new list equal to the
input plus one entry whose fields start with `role: "assistant"`, carry
a `content` field shaped `[{type: "text", text}]` exactly when the text
is non-empty, and carry a `tool_calls` field exactly when the tool-call
list is non-empty.  (The embedding is pure, mirroring the source's
`list(messages)` copy: the input list itself is left unchanged.) -/
theorem appendAssistantTurn_shape
    (messages : List JValue) (text : String) (tool_calls : List JValue) :
    appendAssistantTurn messages text tool_calls
        = messages ++ [.obj (assistantFields text tool_calls)]
    ∧ (assistantFields text tool_calls).lookup "role"
        = some (.str "assistant")
    ∧ (assistantFields text tool_calls).lookup "content"
        = (if text = "" then none
           else some (.arr [.obj [("type", .str "text"),
                                  ("text", .str text)]]))
    ∧ (assistantFields text tool_calls).lookup "tool_calls"
        = (if tool_calls.isEmpty then none else some (.arr tool_calls)) := by
  refine ⟨rfl, ?_, ?_, ?_⟩ <;>
    cases tool_calls <;>
    by_cases ht : text = "" <;>
    simp [assistantFields, ht, List.lookup]

open CustomOpenAIChatCompletion in
/-- **C7.** For every list of (dict-shaped) messages,
`ChatMessagesCreate.execute` with `role="tool"` fails with the
validation error exactly when no assistant message in the list yields a
tool-call id (an assistant message yields an id when its `tool_calls`
is a non-empty list whose last entry carries a truthy `id` or
`call_id`); when the backwards search finds an id, the call succeeds
and the appended message carries it as `tool_call_id`. -/
theorem chatMessagesCreate_tool_requires_id
    (messages : List JValue) (content : String)
    (hws : messages.all JValue.isObj = true) :
    (ChatMessagesCreate.execute messages "tool" content
        = .error .valueError ↔ ∀ m ∈ messages, yieldsId m = none)
    ∧ (∀ tcid, messages.reverse.findSome? yieldsId = some tcid →
        ChatMessagesCreate.execute messages "tool" content =
          .ok (messages ++
            [.obj [("role", .str "tool"),
                   ("content", ChatMessagesCreate.messageContent content),
                   ("tool_call_id", tcid)]])) := by
  have hall : ∀ m ∈ messages, JValue.isObj m = true := by
    simpa [List.all_eq_true] using hws
  have hobj : ∀ m ∈ messages.reverse, JValue.isObj m = true := by
    intro m hm
    exact hall m (List.mem_reverse.mp hm)
  have hsearch := searchTcId_eq messages.reverse hobj
  constructor
  · cases hfs : messages.reverse.findSome? yieldsId with
    | none =>
        constructor
        · intro _ m hm
          exact (findSome?_none_iff yieldsId messages.reverse).mp hfs m
            (List.mem_reverse.mpr hm)
        · intro _
          simp [ChatMessagesCreate.execute, hsearch, hfs]
    | some v =>
        constructor
        · intro habs
          simp [ChatMessagesCreate.execute, hsearch, hfs] at habs
        · intro hall
          exfalso
          have hnone : messages.reverse.findSome? yieldsId = none :=
            (findSome?_none_iff yieldsId messages.reverse).mpr
              (fun m hm => hall m (List.mem_reverse.mp hm))
          rw [hnone] at hfs
          cases hfs
  · intro tcid hfs
    simp [ChatMessagesCreate.execute, hsearch, hfs]

open CustomOpenAIChatCompletion in
/-- Witness for C7: with an upstream assistant message whose
`tool_calls` last entry has `id = "c1"`, appending a `tool` message
succeeds and carries `tool_call_id = "c1"`; the error direction of the
iff is instantiated on the empty message list. -/
theorem chatMessagesCreate_tool_requires_id_witness :
    ChatMessagesCreate.execute
        [.obj [("role", JValue.str "assistant"),
               ("tool_calls", JValue.arr [.obj [("id", .str "c1")]])]]
        "tool" "ok"
      = .ok [.obj [("role", JValue.str "assistant"),
                   ("tool_calls", JValue.arr [.obj [("id", .str "c1")]])],
             .obj [("role", .str "tool"),
                   ("content", ChatMessagesCreate.messageContent "ok"),
                   ("tool_call_id", .str "c1")]]
    ∧ ChatMessagesCreate.execute [] "tool" "ok" = .error .valueError := by
  constructor
  · exact (chatMessagesCreate_tool_requires_id
      [.obj [("role", JValue.str "assistant"),
             ("tool_calls", JValue.arr [.obj [("id", .str "c1")]])]]
      "ok" rfl).2 (.str "c1") rfl
  · exact (chatMessagesCreate_tool_requires_id [] "ok" rfl).1.mpr
      (by intro m hm; cases hm)

open CustomOpenAIChatCompletion in
/-- **C8.** For every response dict in the legacy Completions shape —
no `output`, no `output_text`, `object` is not `"chat.completion"`,
and `choices` a non-empty list whose head is a dict with a `text` that
is absent, null, or a string — `_extract_text` returns
`choices[0].text` (the empty string when absent or null) and
`_extract_tool_calls` returns the empty sequence. -/
theorem legacy_completions_shape
    (data : List (String × JValue)) (ckvs : List (String × JValue))
    (rest : List JValue)
    (ho : data.lookup "output" = none)
    (hot : data.lookup "output_text" = none)
    (hobj : ((data.lookup "object").getD .null).eqStr "chat.completion" = false)
    (hch : data.lookup "choices" = some (.arr (.obj ckvs :: rest)))
    (htext : ∀ v, ckvs.lookup "text" = some v → v = .null ∨ ∃ s, v = .str s) :
    extract_text data = .ok (.str (legacyText ckvs)) ∧
    extract_tool_calls data = .ok [] := by
  refine ⟨extract_text_legacy_eq data ckvs rest ho hot hobj hch htext, ?_⟩
  simp [extract_tool_calls, ho, hobj]

open CustomOpenAIChatCompletion in
/-- Witness for C8: the payload `{choices: [{text: "x"}]}` yields text
`"x"` and no tool calls. -/
theorem legacy_completions_shape_witness :
    extract_text [("choices", JValue.arr [.obj [("text", .str "x")]])]
      = .ok (.str "x")
    ∧ extract_tool_calls [("choices", JValue.arr [.obj [("text", .str "x")]])]
      = .ok [] := by
  have h := legacy_completions_shape
    [("choices", JValue.arr [.obj [("text", .str "x")]])]
    [("text", JValue.str "x")] [] rfl rfl rfl rfl
    (by
      intro v hv
      right
      exact ⟨"x", by simpa using hv.symm⟩)
  exact h

end Basenc
